import Mathlib

/-!
Verification of the inference-gateway admission and streaming pipeline.

Shallow embedding of `gateway/app/main.py` and its services
(`quota_manager.py`, `cache_service.py`, `health_check.py`,
`middleware/circuit_breaker.py`).  Machine floats for wall-clock times and
configuration rates are modelled as rationals; Python dictionaries carrying
JSON data are modelled by the mutual inductive `JVal`/`JArr`/`JObj` below,
with objects as ordered field lists (Python dictionaries preserve insertion
order, and `dict.pop` removes the named key in place).
-/

namespace Gateway

/-! ## JSON values (model of parsed Python JSON data) -/

mutual
/-- A JSON value as produced by `json.loads`. -/
inductive JVal where
  | null
  | jbool (b : Bool)
  | num (q : ℚ)
  | str (s : String)
  | arr (xs : JArr)
  | obj (fs : JObj)
  deriving DecidableEq
/-- A JSON array (list of values). -/
inductive JArr where
  | nil
  | cons (v : JVal) (rest : JArr)
  deriving DecidableEq
/-- A JSON object: ordered key/value pairs, as in a Python dict. -/
inductive JObj where
  | nil
  | cons (k : String) (v : JVal) (rest : JObj)
  deriving DecidableEq
end

/-- Membership test `k in d` on a Python dict. -/
def jObjHas : JObj → String → Bool
  | .nil, _ => false
  | .cons k _ rest, key => k == key || jObjHas rest key

/-- Lookup `d.get(k)` on a Python dict (`none` models a missing key). -/
def jObjGet : JObj → String → Option JVal
  | .nil, _ => none
  | .cons k v rest, key => if k == key then some v else jObjGet rest key

mutual
/-- Serialization in the style of `json.dumps` (default separators).
String escaping is omitted: every string the gateway emits through this
model is free of quotes, backslashes and control characters. -/
def dumps : JVal → String
  | .null => "null"
  | .jbool b => cond b "true" "false"
  | .num q => toString q
  | .str s => "\"" ++ s ++ "\""
  | .arr xs => "[" ++ dumpsArr xs ++ "]"
  | .obj fs => "\x7b" ++ dumpsObj fs ++ "\x7d"

/-- Serialization of a JSON array body. -/
def dumpsArr : JArr → String
  | .nil => ""
  | .cons x .nil => dumps x
  | .cons x rest => dumps x ++ ", " ++ dumpsArr rest

/-- Serialization of a JSON object body. -/
def dumpsObj : JObj → String
  | .nil => ""
  | .cons k v .nil => "\"" ++ k ++ "\": " ++ dumps v
  | .cons k v rest => "\"" ++ k ++ "\": " ++ dumps v ++ ", " ++ dumpsObj rest
end

/-! ## Configuration (`app/config.py`, fields used by the claims) -/

/-- The settings record from `config.py`; floats are rationals here. -/
structure Settings where
  gateway_api_key : String
  max_rps_per_ip : ℚ
  rps_window_secs : ℚ
  rps_burst : ℕ
  org_daily_token_limit : ℕ
  org_daily_request_limit : ℕ
  org_monthly_token_limit : ℕ
  circuit_failure_threshold : ℕ
  circuit_recovery_timeout : ℚ
  stream_idle_timeout_secs : ℚ
  cache_ttl_secs : ℚ
  cache_max_size : ℕ

/-! ## Rate limiter (`main.py`, `enforce_rps`) -/

/-- Python `int(float)` truncates toward zero. -/
def pyInt (q : ℚ) : ℤ := if 0 ≤ q then ⌊q⌋ else ⌈q⌉

/-- The admission limit `max(settings.rps_burst,
int(settings.max_rps_per_ip * settings.rps_window_secs))`. -/
def rpsLimit (cfg : Settings) : ℕ :=
  max cfg.rps_burst (pyInt (cfg.max_rps_per_ip * cfg.rps_window_secs)).toNat

/-- The eviction loop `while q and (now - q[0]) > settings.rps_window_secs:
q.popleft()`: pop from the front while the head is older than the window. -/
def evictOld (w now : ℚ) : List ℚ → List ℚ
  | [] => []
  | t :: ts => if now - t > w then evictOld w now ts else t :: ts

/-- One call of `enforce_rps` on the per-tenant deque: evict, then reject
when the queue has reached the limit, else append `now`.  Returns
(admitted, new queue). -/
def enforce_rps (cfg : Settings) (now : ℚ) (q : List ℚ) : Bool × List ℚ :=
  if rpsLimit cfg ≤ (evictOld cfg.rps_window_secs now q).length
  then (false, evictOld cfg.rps_window_secs now q)
  else (true, evictOld cfg.rps_window_secs now q ++ [now])

/-- Rate-limiter trace state: the live deque and the log of admitted
request timestamps. -/
structure RLState where
  q : List ℚ
  admitted : List ℚ
  deriving DecidableEq

/-- One request arriving at time `now` processed through `enforce_rps`:
the queue is replaced by the result, and on admission the timestamp is
logged. -/
def rlStep (cfg : Settings) (st : RLState) (now : ℚ) : RLState :=
  if (enforce_rps cfg now st.q).1
  then { q := (enforce_rps cfg now st.q).2, admitted := st.admitted ++ [now] }
  else { q := (enforce_rps cfg now st.q).2, admitted := st.admitted }

/-- A whole sequence of requests from one tenant, oldest first. -/
def rlRun (cfg : Settings) (ts : List ℚ) : RLState :=
  ts.foldl (rlStep cfg) ⟨[], []⟩

/-- Number of timestamps of `l` inside the closed window `[s, s + w]`. -/
def countWindow (w s : ℚ) (l : List ℚ) : ℕ :=
  l.countP (fun t => decide (s ≤ t ∧ t ≤ s + w))

/-! ## Authentication (`main.py`, `require_api_key`) -/

/-- Outcome of `require_api_key`. -/
inductive AuthCheck where
  | missing
  | invalid
  | ok
  deriving DecidableEq

/-- The check `require_api_key(authorization)`: 401 when the header is
absent or does not start with `Bearer `, 403 when the token mismatches.
`authorization.split(" ", 1)[1].strip()` equals dropping the 7-character
prefix and trimming, given the `startswith` guard. -/
def require_api_key (key : String) : Option String → AuthCheck
  | none => .missing
  | some a =>
    if a.startsWith "Bearer " then
      if (a.drop 7).trim == key then .ok else .invalid
    else .missing

/-- Early admission pipeline of `chat_completions`: `enforce_rps(ip)` runs
before `require_api_key(authorization)` (main.py lines 597-599).  Returns
the early HTTP rejection status (if any) and the new rate window. -/
structure AdmissionResult where
  status : Option ℕ
  window : List ℚ
  deriving DecidableEq

/-- The rate-limit-then-auth prefix of the chat/completions handlers. -/
def chat_admission (cfg : Settings) (now : ℚ) (q : List ℚ)
    (auth : Option String) : AdmissionResult :=
  let r := enforce_rps cfg now q
  if !r.1 then ⟨some 429, r.2⟩
  else
    match require_api_key cfg.gateway_api_key auth with
    | .missing => ⟨some 401, r.2⟩
    | .invalid => ⟨some 403, r.2⟩
    | .ok => ⟨none, r.2⟩

/-! ## Quota ledger (`services/quota_manager.py`) -/

/-- Per-tenant usage record (`QuotaManager.usage[org_ip]`). -/
structure QuotaRecord where
  daily_tokens : ℕ
  daily_requests : ℕ
  monthly_tokens : ℕ
  daily_reset_at : ℚ
  monthly_reset_at : ℚ
  deriving DecidableEq

/-- Rollover part of `_get_or_create_usage` for an existing record: zero the
daily (resp. monthly) counters when `now` passed the boundary.  The fresh
boundary values produced by `_get_next_day_reset` / `_get_next_month_reset`
are passed in as `nextD` / `nextM` (the datetime arithmetic is modelled
separately below). -/
def rollover (now nextD nextM : ℚ) (u : QuotaRecord) : QuotaRecord :=
  let u1 := if u.daily_reset_at ≤ now then
      { u with daily_tokens := 0, daily_requests := 0, daily_reset_at := nextD }
    else u
  if u1.monthly_reset_at ≤ now then
    { u1 with monthly_tokens := 0, monthly_reset_at := nextM }
  else u1

/-- `QuotaManager.check_quota` on an (already rolled-over) record: returns
the Python tuple `(allowed, reason_if_denied)`. -/
def check_quota (cfg : Settings) (u : QuotaRecord) (estimated_tokens : ℕ) :
    Bool × Option String :=
  if cfg.org_daily_request_limit ≤ u.daily_requests then
    (false, some "Daily request limit exceeded")
  else if cfg.org_daily_token_limit < u.daily_tokens + estimated_tokens then
    (false, some "Daily token limit exceeded")
  else if cfg.org_monthly_token_limit < u.monthly_tokens + estimated_tokens then
    (false, some "Monthly token limit exceeded")
  else (true, none)

/-- `QuotaManager.record_usage`: add the tokens, count one request. -/
def record_usage (u : QuotaRecord) (tokens_used : ℕ) : QuotaRecord :=
  { u with
    daily_tokens := u.daily_tokens + tokens_used,
    daily_requests := u.daily_requests + 1,
    monthly_tokens := u.monthly_tokens + tokens_used }

/-- Python truthiness of the value returned by `check_quota`: it is a
2-tuple, and a non-empty tuple is always truthy, whatever it contains. -/
def pyTruthyPair {α β : Type} (_ : α × β) : Bool := true

/-- The gate in `chat_completions` / `sql_completions`:
`if not quota_manager.check_quota(ip, input_tokens):` raise 429.  The
condition is `not` of a 2-tuple, so this is the exact branch the code
takes. -/
def gateway_denies_quota (cfg : Settings) (u : QuotaRecord)
    (estimated_tokens : ℕ) : Bool :=
  !pyTruthyPair (check_quota cfg u estimated_tokens)

/-! ## Reset boundaries (`quota_manager.py`, `_get_next_day_reset` and
`_get_next_month_reset`) -/

/-- A UTC wall-clock instant at second precision. -/
structure UTCTime where
  year : ℕ
  month : ℕ
  day : ℕ
  hour : ℕ
  minute : ℕ
  second : ℕ
  deriving DecidableEq

/-- Gregorian leap-year rule. -/
def isLeap (y : ℕ) : Bool := y % 4 == 0 && (y % 100 != 0 || y % 400 == 0)

/-- Days in a month of the Gregorian calendar. -/
def daysInMonth (y m : ℕ) : ℕ :=
  if m == 2 then (if isLeap y then 29 else 28)
  else if m == 4 || m == 6 || m == 9 || m == 11 then 30
  else 31

/-- Python `datetime.replace(day=d)`: raises `ValueError` when `d` is not a
valid day of the current month. -/
def replaceDay (t : UTCTime) (d : ℕ) : Except String UTCTime :=
  if 1 ≤ d ∧ d ≤ daysInMonth t.year t.month then .ok { t with day := d }
  else .error "day is out of range for month"

/-- `_get_next_day_reset`: zero the time of day, then
`tomorrow.replace(day=now.day + 1)` — the day is advanced without any
month rollover, so the `replace` raises at month end. -/
def get_next_day_reset (now : UTCTime) : Except String UTCTime :=
  let mid := { now with hour := 0, minute := 0, second := 0 }
  replaceDay mid (now.day + 1)

/-- `_get_next_month_reset`: December maps to January 1 of the next year,
any other month to the 1st of the following month. -/
def get_next_month_reset (now : UTCTime) : UTCTime :=
  if now.month == 12 then ⟨now.year + 1, 1, 1, 0, 0, 0⟩
  else ⟨now.year, now.month + 1, 1, 0, 0, 0⟩

/-! ## Circuit breaker (`middleware/circuit_breaker.py`) -/

/-- The three breaker states. -/
inductive CircuitState where
  | closed
  | opened
  | halfOpen
  deriving DecidableEq

/-- Per-backend breaker record. -/
structure Breaker where
  state : CircuitState
  failure_count : ℕ
  success_count : ℕ
  last_failure_time : ℚ
  deriving DecidableEq

/-- A freshly constructed breaker: CLOSED, zero counters. -/
def initBreaker : Breaker := ⟨.closed, 0, 0, 0⟩

/-- `_should_attempt_reset`: OPEN and the recovery timeout elapsed. -/
def should_attempt_reset (cfg : Settings) (now : ℚ) (b : Breaker) : Bool :=
  b.state == .opened && decide (cfg.circuit_recovery_timeout ≤ now - b.last_failure_time)

/-- `CircuitBreaker.__enter__`: maybe transition OPEN to HALF_OPEN, then
raise `CircuitBreakerOpenError` when still OPEN.  Returns the breaker after
the entry attempt and whether the error was raised (in which case the
`with` body and `__exit__` never run). -/
def breakerEnter (cfg : Settings) (now : ℚ) (b : Breaker) : Breaker × Bool :=
  let b1 := if should_attempt_reset cfg now b then
      { b with state := .halfOpen, success_count := 0 }
    else b
  (b1, b1.state == .opened)

/-- `_record_success`: in HALF_OPEN count successes and close at the third;
in CLOSED reset the failure count; in OPEN do nothing. -/
def record_success (b : Breaker) : Breaker :=
  match b.state with
  | .halfOpen =>
    if 3 ≤ b.success_count + 1 then
      { b with state := .closed, failure_count := 0, success_count := 0 }
    else { b with success_count := b.success_count + 1 }
  | .closed => { b with failure_count := 0 }
  | .opened => b

/-- `_record_failure`: count the failure and stamp the time, then from
HALF_OPEN reopen (zeroing the success count), and from CLOSED open once the
failure threshold is reached. -/
def record_failure (cfg : Settings) (now : ℚ) (b : Breaker) : Breaker :=
  let b1 := { b with failure_count := b.failure_count + 1, last_failure_time := now }
  match b.state with
  | .halfOpen => { b1 with state := .opened, success_count := 0 }
  | .closed =>
    if cfg.circuit_failure_threshold ≤ b1.failure_count then
      { b1 with state := .opened }
    else b1
  | .opened => b1

/-- Observable breaker events: a guarded call attempt (`__enter__` at a
wall-clock time), and the outcome recordings done by `__exit__`. -/
inductive BEvent where
  | enter (now : ℚ)
  | success
  | failure (now : ℚ)
  deriving DecidableEq

/-- One breaker event applied to the breaker record. -/
def breakerStep (cfg : Settings) (b : Breaker) : BEvent → Breaker
  | .enter now => (breakerEnter cfg now b).1
  | .success => record_success b
  | .failure now => record_failure cfg now b

/-- A breaker trace from the initial CLOSED state. -/
def breakerRun (cfg : Settings) (evs : List BEvent) : Breaker :=
  evs.foldl (breakerStep cfg) initBreaker

/-! ## Backend selection (`services/health_check.py`,
`HealthCheckService.get_healthy_backend`) -/

/-- `get_healthy_backend(backend_type)`: raise `ValueError` when the
healthy list is empty, else return the FIRST healthy backend (the body
ignores any position; its comment reads `For now, just return the first
healthy backend`). -/
def get_healthy_backend (healthy : List String) : Except String String :=
  match healthy with
  | [] => .error "No healthy backends available"
  | b :: _ => .ok b

/-- Backend chosen for the Kth admitted chat request.  `main.py` draws
`idx = next(_rr_chat_index)` (a cycle over the CONFIGURED backend count)
and calls `get_healthy_backend("chat", idx)` — but the service method
accepts no index parameter (the real call is a `TypeError`); read
charitably, the drawn index is simply never consumed by the selection. -/
def chat_dispatch (healthy : List String) (_k : ℕ) : Except String String :=
  get_healthy_backend healthy

/-! ## SSE stream proxy (`main.py`, `stream_proxy` and its helpers) -/

/-- The fields stripped by `clean_stream_chunk`. -/
def vllmFields : List String :=
  ["prompt_token_ids", "prompt_logprobs", "token_ids",
   "reasoning_content", "stop_reason", "kv_transfer_params"]

/-- Removal of every stripped field from one object level
(`chunk.pop(field, None)` for each field of the list). -/
def stripFields : JObj → JObj
  | .nil => .nil
  | .cons k v rest =>
    if vllmFields.contains k then stripFields rest
    else .cons k v (stripFields rest)

/-- Field stripping inside a `delta` or `message` value: only a dict has
fields popped; the code would raise on another shape, which surfaces
through the generic exception path (not modelled at this level). -/
def cleanInner : JVal → JVal
  | .obj fs => .obj (stripFields fs)
  | v => v

/-- Map over object entries, rewriting the `delta` and `message` values. -/
def cleanChoiceFields : JObj → JObj
  | .nil => .nil
  | .cons k v rest =>
    let v1 := if k == "delta" || k == "message" then cleanInner v else v
    .cons k v1 (cleanChoiceFields rest)

/-- Cleanup of a single element of `choices`: strip its own fields, then
strip inside its `delta` and `message` members. -/
def cleanChoice : JVal → JVal
  | .obj cf => .obj (cleanChoiceFields (stripFields cf))
  | v => v

/-- `cleanChoice` applied across the `choices` array. -/
def cleanChoices : JArr → JArr
  | .nil => .nil
  | .cons c rest => .cons (cleanChoice c) (cleanChoices rest)

/-- Rewrite of the `choices` entry value when it is an array. -/
def cleanChoicesEntry : JObj → JObj
  | .nil => .nil
  | .cons k v rest =>
    let v1 := if k == "choices" then
        (match v with
         | .arr cs => .arr (cleanChoices cs)
         | other => other)
      else v
    .cons k v1 (cleanChoicesEntry rest)

/-- `clean_stream_chunk`: pop the stripped fields at top level, then clean
each element of `choices`. -/
def clean_stream_chunk (chunk : JObj) : JObj :=
  cleanChoicesEntry (stripFields chunk)

/-- `normalize_error_chunk`: a string-valued `error` is rewrapped as
`error.message/type/code`; anything else (including a dict error) passes
through unchanged. -/
def normalize_error_chunk (chunk : JObj) : JVal :=
  match jObjGet chunk "error" with
  | some (.str s) =>
    .obj (.cons "error"
      (.obj (.cons "message" (.str s)
        (.cons "type" (.str "api_error")
          (.cons "code" .null .nil)))) .nil)
  | _ => .obj chunk

/-- A frame emitted downstream, before serialization. -/
inductive Frame where
  | doneF
  | jsonF (v : JVal)
  | rawF (s : String)
  deriving DecidableEq

/-- The data payload of a frame as text. -/
def framePayload : Frame → String
  | .doneF => "[DONE]"
  | .jsonF v => dumps v
  | .rawF s => s

/-- The bytes written downstream for one frame: every yield site of
`stream_proxy` is of the shape `data: <payload>\n\n`. -/
def frameText (f : Frame) : String := "data: " ++ framePayload f ++ "\n\n"

/-- The payload of `sse_error(message, err_type, code)`. -/
def sse_error_frame (message etype code : JVal) : Frame :=
  .jsonF (.obj (.cons "error"
    (.obj (.cons "message" message
      (.cons "type" etype
        (.cons "code" code .nil)))) .nil))

/-- One upstream line, classified the way the streaming loop reads it:
a line without the `data: ` prefix (dropped), a `data: ` line whose payload
strips to `[DONE]`, one whose payload parses as a JSON object, or one whose
payload is not valid JSON (passed through verbatim).  A payload parsing to
a non-object JSON value makes the Python membership test raise and is not
modelled. -/
inductive UpLine where
  | notData (s : String)
  | dataDone
  | dataJson (chunk : JObj)
  | dataRaw (s : String)
  deriving DecidableEq

/-- How the upstream behaves once the provided lines are exhausted:
a clean close, an `httpx.TimeoutException` with message `msg`, or any
other exception with message `msg`. -/
inductive StreamEnd where
  | closed
  | timedOut (msg : String)
  | failed (msg : String)
  deriving DecidableEq

/-- Input to one guarded streaming call: the pre-stream HTTP status, the
error body (raw text plus its JSON-object parse when it succeeds), the
timestamped SSE lines, and the way the upstream ends. -/
structure StreamInput where
  status : ℕ
  bodyText : String
  bodyJson : Option JObj
  lines : List (ℚ × UpLine)
  ending : StreamEnd
  deriving DecidableEq

/-- Frames produced for one upstream line inside the loop. -/
def emitLine : UpLine → List Frame
  | .notData _ => []
  | .dataDone => [.doneF]
  | .dataJson chunk =>
    if jObjHas chunk "error" then [.jsonF (normalize_error_chunk chunk)]
    else [.jsonF (.obj (clean_stream_chunk chunk))]
  | .dataRaw s => [.rawF s]

/-- Loop exit: the lines were exhausted, or the idle check broke out. -/
inductive LoopExit where
  | finished
  | idleBreak
  deriving DecidableEq

/-- The streaming loop: per line, compare the arrival time against the
previous chunk time and `break` (emitting nothing further) when the gap
exceeds `stream_idle_timeout_secs`; otherwise forward the line. -/
def stream_loop (cfg : Settings) (last : ℚ) :
    List (ℚ × UpLine) → List Frame × LoopExit
  | [] => ([], .finished)
  | (t, l) :: rest =>
    if cfg.stream_idle_timeout_secs < t - last then ([], .idleBreak)
    else
      let r := stream_loop cfg t rest
      (emitLine l ++ r.1, r.2)

/-- Extraction of `(msg, err_type, code)` from a pre-stream error body
(`stream_proxy`, status >= 400 branch).  String-valued `message`, `type`
and `code` entries are taken from a dict-valued `error`; a string-valued
`error`, or a top-level string `message`, replaces the message; otherwise
the raw body text is used.  A non-string value where the code expects a
string raises in Python and is approximated by the fallback here. -/
def extract_pre_stream_error (status : ℕ) (bodyText : String)
    (bodyJson : Option JObj) : String × String × JVal :=
  let defMsg := bodyText
  let defType := "api_error"
  let defCode := JVal.str (toString status)
  match bodyJson with
  | none => (defMsg, defType, defCode)
  | some j =>
    match jObjGet j "error" with
    | some (.obj ef) =>
      ((match jObjGet ef "message" with | some (.str s) => s | _ => defMsg),
       (match jObjGet ef "type" with | some (.str s) => s | _ => defType),
       (match jObjGet ef "code" with | some c => c | none => defCode))
    | some (.str s) => (s, defType, defCode)
    | _ =>
      match jObjGet j "message" with
      | some (.str s) => (s, defType, defCode)
      | _ => (defMsg, defType, defCode)

/-- The whole generator of `stream_proxy` for one call, gated by the
breaker of the target URL; `tEnter` is the entry wall-clock time (also the
initial `last_chunk_time`) and `tFail` the time a failure would be
recorded at.  Returns the emitted frames and the breaker after the call.
Paths, in order: `CircuitBreakerOpenError` raised by `__enter__` (no
`__exit__` runs); pre-stream status >= 400 (error frame, `[DONE]`, normal
return, so `__exit__` records success); the line loop ended by the idle
check (`break`, normal return, success recorded, and no `[DONE]` frame is
appended); clean upstream close (success); `TimeoutException` or another
exception after the lines (error frame plus `[DONE]`, failure recorded). -/
def stream_generate (cfg : Settings) (b : Breaker) (tEnter tFail : ℚ)
    (inp : StreamInput) : List Frame × Breaker :=
  let e := breakerEnter cfg tEnter b
  if e.2 then
    ([sse_error_frame (.str "Backend temporarily unavailable")
        (.str "service_unavailable") (.str "backend_unavailable"), .doneF],
     e.1)
  else if 400 ≤ inp.status then
    let x := extract_pre_stream_error inp.status inp.bodyText inp.bodyJson
    ([sse_error_frame (.str (x.1.take 500)) (.str x.2.1) x.2.2, .doneF],
     record_success e.1)
  else
    let r := stream_loop cfg tEnter inp.lines
    match r.2 with
    | .idleBreak => (r.1, record_success e.1)
    | .finished =>
      match inp.ending with
      | .closed => (r.1, record_success e.1)
      | .timedOut msg =>
        (r.1 ++ [sse_error_frame
            (.str ((if msg == "" then "Stream timeout" else msg).take 500))
            (.str "timeout") (.str "stream_timeout"), .doneF],
         record_failure cfg tFail e.1)
      | .failed msg =>
        (r.1 ++ [sse_error_frame (.str (msg.take 500))
            (.str "api_error") (.str "stream_proxy_exception"), .doneF],
         record_failure cfg tFail e.1)

/-! ## Response cache (`services/cache_service.py` and the non-streaming
branch of `chat_completions`) -/

/-- The request fields that reach the cache key (shallow model of the
chat/completions payload). -/
structure ChatPayload where
  model : Option String
  messages : JVal
  temperature : Option ℚ
  max_tokens : Option ℚ
  prompt : Option String
  stop : Option JVal
  top_p : Option JVal
  stream : Bool
  deriving DecidableEq

/-- `get_cache_key`: the canonical key-sorted JSON of the selected fields
with the documented defaults.  The SHA-256 hex digest of the canonical
string is abstracted to the canonical string itself (the digest is used
only for equality of keys). -/
def get_cache_key (p : ChatPayload) : String :=
  dumps (.obj
    (.cons "max_tokens" (.num (p.max_tokens.getD 2048))
      (.cons "messages" p.messages
        (.cons "model" (.str (p.model.getD ""))
          (.cons "prompt" (.str (p.prompt.getD ""))
            (.cons "stop" (p.stop.getD .null)
              (.cons "temperature" (.num (p.temperature.getD (7/10)))
                (.cons "top_p" (p.top_p.getD .null) .nil))))))))

/-- One TTL cache entry: key, value, insertion time. -/
structure CacheEntry where
  key : String
  val : JVal
  insertedAt : ℚ
  deriving DecidableEq

/-- `TTLCache.get` (cachetools, external dependency — modelled from its
documented semantics): a stored value is returned while it has not
expired, where an entry expires once `ttl` seconds passed since
insertion. -/
def cache_get (ttl now : ℚ) (c : List CacheEntry) (k : String) : Option JVal :=
  match c.find? (fun e => e.key == k) with
  | some e => if now < e.insertedAt + ttl then some e.val else none
  | none => none

/-- `CacheService.set` over the TTL store: it stores unconditionally (the
method has no temperature guard).  Replaces any entry under the same key;
when the store is full the oldest entry is evicted (capacity model of the
LRU policy sufficient for the claims). -/
def cache_set (maxsize : ℕ) (now : ℚ) (c : List CacheEntry) (k : String)
    (v : JVal) : List CacheEntry :=
  let c1 := c.filter (fun e => e.key != k) ++ [⟨k, v, now⟩]
  if maxsize < c1.length then c1.drop (c1.length - maxsize) else c1

/-- `CacheService.should_cache`: temperature (default 0.7) at most 0.3.
Defined in the source — and never called by any route. -/
def should_cache (p : ChatPayload) : Bool :=
  decide (p.temperature.getD (7/10) ≤ 3/10)

/-- The non-streaming tail of `chat_completions` (main.py lines 640-657):
look the key up; on a hit return the cached value; on a miss proxy to the
backend and then `cache_service.set(cache_key, result)` with no
cacheability check.  Returns the response and the new cache contents. -/
def chat_nonstream_cache_path (cfg : Settings) (now : ℚ)
    (c : List CacheEntry) (p : ChatPayload) (backendResult : JVal) :
    JVal × List CacheEntry :=
  let key := get_cache_key p
  match cache_get cfg.cache_ttl_secs now c key with
  | some cached => (cached, c)
  | none =>
    (backendResult, cache_set cfg.cache_max_size now c key backendResult)

/-- Decidable equality of `Except` results (used to evaluate the selection
and reset functions in the concrete theorems). -/
instance exceptDecEq {ε α : Type} [DecidableEq ε] [DecidableEq α] :
    DecidableEq (Except ε α) := fun x y =>
  match x, y with
  | .ok a, .ok b =>
    if h : a = b then .isTrue (by rw [h]) else .isFalse (fun hh => h (Except.ok.inj hh))
  | .ok _, .error _ => .isFalse (fun hh => nomatch hh)
  | .error _, .ok _ => .isFalse (fun hh => nomatch hh)
  | .error a, .error b =>
    if h : a = b then .isTrue (by rw [h]) else .isFalse (fun hh => h (Except.error.inj hh))

/-! ## Predicates and invariants used by the statements -/

/-- A value has no field `k` at its own top level (vacuously true for a
non-object). -/
def objLacks (v : JVal) (k : String) : Bool :=
  match v with
  | .obj fs => !jObjHas fs k
  | _ => true

/-- A `choices` element is free of field `k` at the choice level and inside
its `delta` and `message` members. -/
def choiceStripped (c : JVal) (k : String) : Bool :=
  objLacks c k &&
  (match c with
   | .obj cf =>
     (match jObjGet cf "delta" with | some d => objLacks d k | none => true) &&
     (match jObjGet cf "message" with | some m => objLacks m k | none => true)
   | _ => true)

/-- `choiceStripped` across an array. -/
def allChoicesStripped : JArr → String → Bool
  | .nil, _ => true
  | .cons c rest, k => choiceStripped c k && allChoicesStripped rest k

/-- A chunk is free of field `k` at every level the cleaner inspects:
top level, each `choices[i]`, each `choices[i].delta`, each
`choices[i].message`. -/
def chunkStripped (chunk : JObj) (k : String) : Bool :=
  !jObjHas chunk k &&
  (match jObjGet chunk "choices" with
   | some (.arr cs) => allChoicesStripped cs k
   | _ => true)

/-- Rate-limiter trace invariant: the admitted log is the live queue
prefixed by entries that were evicted, and anything evicted was already
older than the window at eviction time (hence at any later time). -/
def RLInv (w tlast : ℚ) (st : RLState) : Prop :=
  ∃ dropped, st.admitted = dropped ++ st.q ∧ ∀ d ∈ dropped, w < tlast - d

/-! ## Concrete inputs used by the evaluation theorems and witnesses -/

/-- A small concrete configuration: key `secret`, 1 rps over a 1 s window
with burst 1, quota limits 1000/10/10000, breaker threshold 3 with a 10 s
recovery timeout, 10 s stream idle timeout, cache ttl 60 s, capacity
100. -/
def cfgA : Settings :=
  ⟨"secret", 1, 1, 1, 1000, 10, 10000, 3, 10, 10, 60, 100⟩

/-- A variant of `cfgA` with circuit failure threshold 1, so a single
failure opens the breaker. -/
def cfgB : Settings :=
  ⟨"secret", 1, 1, 1, 1000, 10, 10000, 1, 10, 10, 60, 100⟩

/-- A tenant record already at the daily token limit of `cfgA`. -/
def uQ : QuotaRecord := ⟨1000, 1, 1000, 100, 1000⟩

/-- A breaker two failures away from its last reset, still CLOSED under
the threshold 3 of `cfgA`. -/
def b2 : Breaker := ⟨.closed, 2, 0, 0⟩

/-- Upstream that answers HTTP 500 with plain body `boom` before any SSE
content. -/
def err500Inp : StreamInput := ⟨500, "boom", none, [], .closed⟩

/-- Upstream delivering one JSON chunk at t = 1 and then pausing 99 s
before the `[DONE]` sentinel — beyond the 10 s idle timeout of `cfgA`. -/
def idleInp : StreamInput :=
  ⟨200, "", none,
   [(1, .dataJson (.cons "x" (.num 1) .nil)), (100, .dataDone)], .closed⟩

/-- A chunk carrying both an object-valued `error` and a top-level
`token_ids` field. -/
def errTokChunk : JObj :=
  .cons "error" (.obj (.cons "message" (.str "x") .nil))
    (.cons "token_ids" (.arr (.cons (.num 1) .nil)) .nil)

/-- Upstream delivering only `errTokChunk`. -/
def errTokInp : StreamInput :=
  ⟨200, "", none, [(1, .dataJson errTokChunk)], .closed⟩

/-- The S4 chunk: `choices[0].delta` holds `content`, `reasoning_content`
and `token_ids`; the top level holds `prompt_token_ids`. -/
def s4chunk : JObj :=
  .cons "choices"
    (.arr (.cons
      (.obj (.cons "delta"
        (.obj (.cons "content" (.str "hi")
          (.cons "reasoning_content" (.str "x")
            (.cons "token_ids" (.arr (.cons (.num 1) (.cons (.num 2) .nil)))
              .nil)))) .nil)) .nil))
    (.cons "prompt_token_ids" (.arr (.cons (.num 9) .nil)) .nil)

/-- The S4 expected first frame payload. -/
def s4expected : JObj :=
  .cons "choices"
    (.arr (.cons (.obj (.cons "delta"
      (.obj (.cons "content" (.str "hi") .nil)) .nil)) .nil)) .nil

/-- The S4 upstream: the chunk, then the `[DONE]` sentinel, then a clean
close. -/
def s4inp : StreamInput :=
  ⟨200, "", none, [(1, .dataJson s4chunk), (2, .dataDone)], .closed⟩

/-- A chunk with stripped fields at every inspected level and no `error`
key, used to witness the stripping theorem. -/
def wchunk : JObj :=
  .cons "token_ids" (.arr .nil)
    (.cons "choices"
      (.arr (.cons (.obj
        (.cons "token_ids" (.num 3)
          (.cons "delta" (.obj (.cons "token_ids" (.num 4) .nil))
            (.cons "message" (.obj (.cons "token_ids" (.num 5) .nil))
              .nil)))) .nil)) .nil)

/-- A non-streaming chat payload with temperature 0.9 — not cacheable by
the documented rule. -/
def p09 : ChatPayload :=
  ⟨some "m", .arr (.cons (.str "hello") .nil), some (9/10), some 100,
   none, none, none, false⟩

/-- A backend response body. -/
def respJ : JVal :=
  .obj (.cons "usage" (.obj (.cons "total_tokens" (.num 7) .nil)) .nil)

/-! ## Theorems -/

/-- C1: at a tenant record already at the daily token limit, a request
estimated at 500 tokens makes `check_quota` return the denial tuple
`(False, reason)` — yet the gateway condition `not check_quota(...)`
(Python `not` of a non-empty tuple) is `False`, so no 429 is raised, the
request dispatches, and the subsequent `record_usage` pushes
`daily_tokens` above `org_daily_token_limit`. -/
theorem quota_denial_ignored_eval :
    (check_quota cfgA uQ 500).1 = false ∧
    (check_quota cfgA uQ 500).2 = some "Daily token limit exceeded" ∧
    gateway_denies_quota cfgA uQ 500 = false ∧
    (record_usage uQ 500).daily_tokens = 1500 ∧
    cfgA.org_daily_token_limit < (record_usage uQ 500).daily_tokens := by
  decide

/-- C3: with three healthy chat backends, five successive admitted chat
requests are all dispatched to the first backend — not round-robin
`healthy[K mod 3]` — because `get_healthy_backend` ignores the drawn
round-robin index and always returns the head of the healthy list. -/
theorem chat_selection_no_round_robin_eval :
    (List.range 5).map (chat_dispatch ["http://a", "http://b", "http://c"]) =
      List.replicate 5 (Except.ok "http://a") ∧
    (List.range 5).map (chat_dispatch ["http://a", "http://b", "http://c"]) ≠
      (["http://a", "http://b", "http://c", "http://a", "http://b"].map Except.ok) := by
  decide

/-- C7: `_get_next_day_reset` advances the calendar day by one without
month rollover, so on the last day of a month (January 31 or June 30) the
`replace` raises `ValueError` instead of producing the next UTC midnight;
mid-month it works, and the monthly December-to-January rollover is
computed correctly. -/
theorem day_reset_month_end_eval :
    get_next_day_reset ⟨2025, 1, 31, 12, 0, 0⟩ =
      .error "day is out of range for month" ∧
    get_next_day_reset ⟨2025, 6, 30, 8, 30, 0⟩ =
      .error "day is out of range for month" ∧
    get_next_day_reset ⟨2025, 1, 30, 12, 0, 0⟩ = .ok ⟨2025, 1, 31, 0, 0, 0⟩ ∧
    get_next_month_reset ⟨2025, 12, 31, 23, 59, 59⟩ = ⟨2026, 1, 1, 0, 0, 0⟩ := by
  decide

/-- C8: a non-streaming chat request with temperature 0.9 is not cacheable
by `should_cache`, yet the non-streaming path of `chat_completions` stores
the backend response anyway (neither the route nor `CacheService.set`
consults `should_cache`), and a later `get` under the same key returns
it. -/
theorem cache_set_ignores_temperature_eval :
    should_cache p09 = false ∧
    (chat_nonstream_cache_path cfgA 0 [] p09 respJ).1 = respJ ∧
    cache_get cfgA.cache_ttl_secs 1 (chat_nonstream_cache_path cfgA 0 [] p09 respJ).2
      (get_cache_key p09) = some respJ := by
  refine ⟨?_, ?_, ?_⟩
  · simp only [should_cache, p09, Option.getD_some, decide_eq_false_iff_not]
    norm_num
  · simp [chat_nonstream_cache_path, cache_get]
  · simp only [chat_nonstream_cache_path, cache_get, cache_set, cfgA,
      List.find?_nil, List.filter_nil, List.nil_append, List.length_cons,
      List.length_nil, List.find?_cons, beq_self_eq_true]
    norm_num

/-- C2 counterexample: with a 10 s idle timeout, a chunk at t = 1 followed
by a line at t = 100 makes the loop break on the idle check; the stream
ends with the data chunk as its last frame and no `[DONE]` frame is
emitted. -/
theorem idle_timeout_drops_done_frame :
    (stream_loop cfgA 0 idleInp.lines).2 = .idleBreak ∧
    (stream_generate cfgA initBreaker 0 0 idleInp).1 =
      [Frame.jsonF (.obj (.cons "x" (.num 1) .nil))] ∧
    (stream_generate cfgA initBreaker 0 0 idleInp).1.getLast? ≠
      some Frame.doneF := by
  have h1 : ¬ ((10:ℚ) < 1 - 0) := by norm_num
  have h2 : (10:ℚ) < 100 - 1 := by norm_num
  refine ⟨?_, ?_, ?_⟩ <;>
    simp [stream_generate, stream_loop, emitLine, breakerEnter,
      should_attempt_reset, record_success, clean_stream_chunk, stripFields,
      cleanChoicesEntry, jObjHas, idleInp, initBreaker, h1, h2, cfgA]

/-- C5 counterexample: a chunk holding both a dict-valued `error` and a
top-level `token_ids` takes the error-normalization branch, which passes
the object through unchanged — the emitted frame still contains
`token_ids` at top level. -/
theorem error_chunk_retains_stripped_field :
    (stream_generate cfgA initBreaker 0 0 errTokInp).1 =
      [Frame.jsonF (.obj errTokChunk)] ∧
    jObjHas errTokChunk "token_ids" = true ∧
    vllmFields.contains "token_ids" = true := by
  have h1 : ¬ ((10:ℚ) < 1 - 0) := by norm_num
  refine ⟨?_, by decide, by decide⟩
  simp [stream_generate, stream_loop, emitLine, breakerEnter,
    should_attempt_reset, record_success, normalize_error_chunk, jObjHas,
    jObjGet, errTokInp, errTokChunk, initBreaker, h1, cfgA]

/-- C9 counterexample: a breaker at 2 failures (threshold 3) guarding a
call whose backend answers a pre-stream HTTP 500: the generator returns
normally after the error frame, so `__exit__` records a success — the
failure count resets to 0 and the breaker stays CLOSED — whereas recording
a failure would have tripped it OPEN with count 3. -/
theorem pre_stream_error_not_failure_eval :
    (stream_generate cfgA b2 5 5 err500Inp).1 =
      [sse_error_frame (.str ("boom".take 500)) (.str "api_error") (.str "500"),
       Frame.doneF] ∧
    (stream_generate cfgA b2 5 5 err500Inp).2 = ⟨.closed, 0, 0, 0⟩ ∧
    record_failure cfgA 5 (breakerEnter cfgA 5 b2).1 = ⟨.opened, 3, 0, 5⟩ ∧
    (⟨.closed, 0, 0, 0⟩ : Breaker) ≠ ⟨.opened, 3, 0, 5⟩ := by
  exact ⟨rfl, by decide, by decide, by decide⟩

/-- C10: in the chat/completions admission prefix, `enforce_rps` runs
before `require_api_key`; whenever the rate check admits and the
Authorization header is absent, malformed or mismatched, the handler
rejects with 401 or 403 but the tenant rate window has already gained the
request timestamp — the failed request consumed one slot of the window
budget. -/
theorem rate_slot_consumed_before_auth (cfg : Settings) (now : ℚ)
    (q : List ℚ) (auth : Option String)
    (hrl : (enforce_rps cfg now q).1 = true)
    (hauth : require_api_key cfg.gateway_api_key auth ≠ .ok) :
    ((chat_admission cfg now q auth).status = some 401 ∨
     (chat_admission cfg now q auth).status = some 403) ∧
    (chat_admission cfg now q auth).window =
      evictOld cfg.rps_window_secs now q ++ [now] := by
  unfold chat_admission
  unfold enforce_rps at hrl ⊢
  by_cases hlen :
      rpsLimit cfg ≤ (evictOld cfg.rps_window_secs now q).length
  · simp [hlen] at hrl
  · simp only [hlen, if_false, Bool.not_true, Bool.false_eq_true,
      if_neg, ite_false]
    cases hra : require_api_key cfg.gateway_api_key auth with
    | missing => simp [hlen, hra]
    | invalid => simp [hlen, hra]
    | ok => exact absurd hra hauth

/-- C10 witness: a fresh tenant window at t = 0 with no Authorization
header: the request is admitted by the rate check, rejected 401 by auth,
and the window now holds the timestamp. -/
theorem rate_slot_consumed_before_auth_witness :
    ((enforce_rps cfgA 0 []).1 = true ∧
     require_api_key cfgA.gateway_api_key none ≠ .ok) ∧
    (((chat_admission cfgA 0 [] none).status = some 401 ∨
      (chat_admission cfgA 0 [] none).status = some 403) ∧
     (chat_admission cfgA 0 [] none).window =
       evictOld cfgA.rps_window_secs 0 [] ++ [0]) := by
  have hl : rpsLimit cfgA = 1 := by
    simp only [rpsLimit, pyInt, cfgA]
    norm_num
  have h1 : (enforce_rps cfgA 0 []).1 = true := by
    simp [enforce_rps, evictOld, hl]
  have h2 : require_api_key cfgA.gateway_api_key none ≠ .ok := by decide
  exact ⟨⟨h1, h2⟩, rate_slot_consumed_before_auth cfgA 0 [] none h1 h2⟩

/-- One breaker event preserves the bound `success_count ≤ 2` in
HALF_OPEN (the third success leaves the state, resetting the count). -/
lemma breakerStep_sc_le_two (cfg : Settings) (b : Breaker) (e : BEvent)
    (h : b.state = .halfOpen → b.success_count ≤ 2) :
    (breakerStep cfg b e).state = .halfOpen →
      (breakerStep cfg b e).success_count ≤ 2 := by
  cases e with
  | enter now =>
    simp only [breakerStep, breakerEnter]
    cases hr : should_attempt_reset cfg now b with
    | true => intro _; simp
    | false => simpa using h
  | success =>
    simp only [breakerStep, record_success]
    cases hst : b.state with
    | halfOpen =>
      by_cases h3 : 3 ≤ b.success_count + 1
      · simp [h3]
      · simp only [h3, if_false, ite_false]
        intro _
        omega
    | closed => intro hc; simp at hc
    | opened => intro hc; simp [hst] at hc
  | failure now =>
    simp only [breakerStep, record_failure]
    cases hst : b.state with
    | halfOpen => intro hc; simp at hc
    | closed =>
      by_cases h3 : cfg.circuit_failure_threshold ≤ b.failure_count + 1
      · simp [h3]
      · simp only [h3, if_false, ite_false]
        intro hc
        simp [hst] at hc
    | opened => intro hc; simp [hst] at hc

/-- In every reachable breaker state, HALF_OPEN carries at most two
recorded successes. -/
lemma breakerRun_sc_le_two (cfg : Settings) (evs : List BEvent) :
    (breakerRun cfg evs).state = .halfOpen →
      (breakerRun cfg evs).success_count ≤ 2 := by
  suffices h : ∀ (l : List BEvent) (b : Breaker),
      (b.state = .halfOpen → b.success_count ≤ 2) →
      ((l.foldl (breakerStep cfg) b).state = .halfOpen →
        (l.foldl (breakerStep cfg) b).success_count ≤ 2) by
    exact h evs initBreaker (by decide)
  intro l
  induction l with
  | nil => intro b hb; exact hb
  | cons e rest ih =>
    intro b hb
    exact ih (breakerStep cfg b e) (breakerStep_sc_le_two cfg b e hb)

/-- C4: along any breaker trace from the initial CLOSED state, (i) a step
out of OPEN into HALF_OPEN can only be a guarded call attempt at a time
past the recovery timeout, and it resets the success count; (ii) a step
out of HALF_OPEN into CLOSED can only be a recorded success taken at
success count 2 — with (iii) at most two successes ever counted while
HALF_OPEN, so closing takes exactly three consecutive successes; (iv) a
failure in HALF_OPEN reopens the breaker and zeroes the success count;
and (v) a non-closing success in HALF_OPEN stays HALF_OPEN and counts up
by one. -/
theorem circuit_breaker_transitions_spec (cfg : Settings)
    (evs : List BEvent) (e : BEvent) :
    ((breakerRun cfg evs).state = .opened ∧
        (breakerStep cfg (breakerRun cfg evs) e).state = .halfOpen →
      ∃ now, e = .enter now ∧
        cfg.circuit_recovery_timeout ≤
          now - (breakerRun cfg evs).last_failure_time ∧
        (breakerStep cfg (breakerRun cfg evs) e).success_count = 0) ∧
    ((breakerRun cfg evs).state = .halfOpen ∧
        (breakerStep cfg (breakerRun cfg evs) e).state = .closed →
      e = .success ∧ (breakerRun cfg evs).success_count = 2) ∧
    ((breakerRun cfg evs).state = .halfOpen →
      (breakerRun cfg evs).success_count ≤ 2) ∧
    (∀ t, (breakerRun cfg evs).state = .halfOpen →
      (breakerStep cfg (breakerRun cfg evs) (.failure t)).state = .opened ∧
      (breakerStep cfg (breakerRun cfg evs) (.failure t)).success_count = 0) ∧
    ((breakerRun cfg evs).state = .halfOpen →
        (breakerRun cfg evs).success_count < 2 →
      (breakerStep cfg (breakerRun cfg evs) .success).state = .halfOpen ∧
      (breakerStep cfg (breakerRun cfg evs) .success).success_count =
        (breakerRun cfg evs).success_count + 1) := by
  refine ⟨?_, ?_, breakerRun_sc_le_two cfg evs, ?_, ?_⟩
  · rintro ⟨hop, hho⟩
    cases e with
    | enter now =>
      refine ⟨now, rfl, ?_, ?_⟩ <;>
      · simp only [breakerStep, breakerEnter] at hho ⊢
        cases hr : should_attempt_reset cfg now (breakerRun cfg evs) with
        | true =>
          simp only [should_attempt_reset, Bool.and_eq_true,
            decide_eq_true_eq] at hr
          simp [hr.2]
        | false => simp [hr, hop] at hho
    | success =>
      simp only [breakerStep, record_success, hop] at hho
      simp at hho
    | failure t =>
      simp only [breakerStep, record_failure, hop] at hho
      simp at hho
  · rintro ⟨hho, hcl⟩
    cases e with
    | enter now =>
      have hr : should_attempt_reset cfg now (breakerRun cfg evs) = false := by
        simp [should_attempt_reset, hho]
      simp only [breakerStep, breakerEnter, hr, if_false, ite_false] at hcl
      simp [hho] at hcl
    | success =>
      refine ⟨rfl, ?_⟩
      have hle := breakerRun_sc_le_two cfg evs hho
      simp only [breakerStep, record_success, hho] at hcl
      by_cases h3 : 3 ≤ (breakerRun cfg evs).success_count + 1
      · omega
      · simp [h3, hho] at hcl
    | failure t =>
      simp only [breakerStep, record_failure, hho] at hcl
      simp at hcl
  · intro t hho
    constructor <;> simp [breakerStep, record_failure, hho]
  · intro hho hlt
    have h3 : ¬ (3 ≤ (breakerRun cfg evs).success_count + 1) := by omega
    constructor <;> simp [breakerStep, record_success, hho, h3]

/-- C4 witness: one failure at t = 0 with threshold 3 keeps the breaker
CLOSED (`cfgA`); instead drive it with a threshold-1 configuration: after
a failure at t = 0 the breaker is OPEN, a guarded attempt at t = 20 (past
the 10 s recovery timeout) moves it to HALF_OPEN, and the theorem recovers
the timing condition for that transition. -/
theorem circuit_breaker_transitions_spec_witness :
    ((breakerRun cfgB [.failure 0]).state = .opened ∧
     (breakerStep cfgB (breakerRun cfgB [.failure 0]) (.enter 20)).state =
       .halfOpen) ∧
    (∃ now, BEvent.enter 20 = .enter now ∧
      cfgB.circuit_recovery_timeout ≤
        now - (breakerRun cfgB [.failure 0]).last_failure_time ∧
      (breakerStep cfgB (breakerRun cfgB [.failure 0])
        (.enter 20)).success_count = 0) := by
  have hop : (breakerRun cfgB [.failure 0]).state = .opened := by decide
  have hen : (breakerStep cfgB (breakerRun cfgB [.failure 0])
      (.enter 20)).state = .halfOpen := by
    have h20 : (10:ℚ) ≤ 20 := by norm_num
    simp [breakerStep, breakerEnter, should_attempt_reset, breakerRun,
      initBreaker, record_failure, cfgB, h20]
  exact ⟨⟨hop, hen⟩,
    (circuit_breaker_transitions_spec cfgB [.failure 0] (.enter 20)).1
      ⟨hop, hen⟩⟩

/-- Eviction only removes a prefix of entries that are older than the
window at eviction time. -/
lemma evictOld_decomp (w now : ℚ) (q : List ℚ) :
    ∃ e, q = e ++ evictOld w now q ∧ ∀ x ∈ e, w < now - x := by
  induction q with
  | nil => exact ⟨[], rfl, by simp⟩
  | cons t ts ih =>
    by_cases h : now - t > w
    · obtain ⟨e, he, hall⟩ := ih
      refine ⟨t :: e, ?_, ?_⟩
      · simp only [evictOld, if_pos h, List.cons_append]
        exact congrArg (t :: ·) he
      · intro x hx
        rcases List.mem_cons.1 hx with hx | hx
        · subst hx; exact h
        · exact hall x hx
    · exact ⟨[], by simp [evictOld, h], by simp⟩

/-- Shape of a rejected step: the queue is the evicted one, the log is
unchanged. -/
lemma rlStep_of_reject (cfg : Settings) (st : RLState) (now : ℚ)
    (hlen : rpsLimit cfg ≤ (evictOld cfg.rps_window_secs now st.q).length) :
    rlStep cfg st now =
      ⟨evictOld cfg.rps_window_secs now st.q, st.admitted⟩ := by
  simp [rlStep, enforce_rps, hlen]

/-- Shape of an admitted step: the timestamp joins both the queue and the
log. -/
lemma rlStep_admitted (cfg : Settings) (st : RLState) (now : ℚ)
    (hlen : ¬ rpsLimit cfg ≤ (evictOld cfg.rps_window_secs now st.q).length) :
    rlStep cfg st now =
      ⟨evictOld cfg.rps_window_secs now st.q ++ [now],
       st.admitted ++ [now]⟩ := by
  simp [rlStep, enforce_rps, hlen]

/-- `countWindow` distributes over append. -/
lemma countWindow_append (w s : ℚ) (l1 l2 : List ℚ) :
    countWindow w s (l1 ++ l2) = countWindow w s l1 + countWindow w s l2 :=
  List.countP_append _ _ _

/-- `countWindow` is bounded by the length. -/
lemma countWindow_le_length (w s : ℚ) (l : List ℚ) :
    countWindow w s l ≤ l.length :=
  List.countP_le_length _

/-- `countWindow` vanishes on lists with no entry inside the window. -/
lemma countWindow_eq_zero (w s : ℚ) (l : List ℚ)
    (h : ∀ x ∈ l, ¬ (s ≤ x ∧ x ≤ s + w)) : countWindow w s l = 0 := by
  refine List.countP_eq_zero.2 ?_
  intro x hx
  simpa using h x hx

/-- One rate-limiter step preserves the window invariant. -/
lemma rlStep_inv (cfg : Settings) (st : RLState) (tlast now : ℚ)
    (hle : tlast ≤ now) (h : RLInv cfg.rps_window_secs tlast st) :
    RLInv cfg.rps_window_secs now (rlStep cfg st now) := by
  obtain ⟨dropped, hadm, hold⟩ := h
  obtain ⟨e, hq, he⟩ := evictOld_decomp cfg.rps_window_secs now st.q
  have holdnow : ∀ d ∈ dropped ++ e, cfg.rps_window_secs < now - d := by
    intro d hd
    rcases List.mem_append.1 hd with h1 | h2
    · have := hold d h1; linarith
    · exact he d h2
  by_cases hlen :
      rpsLimit cfg ≤ (evictOld cfg.rps_window_secs now st.q).length
  · rw [rlStep_of_reject cfg st now hlen]
    refine ⟨dropped ++ e, ?_, holdnow⟩
    revert hq
    generalize evictOld cfg.rps_window_secs now st.q = q1
    intro hq
    simp [hadm, hq, List.append_assoc]
  · rw [rlStep_admitted cfg st now hlen]
    refine ⟨dropped ++ e, ?_, holdnow⟩
    revert hq
    generalize evictOld cfg.rps_window_secs now st.q = q1
    intro hq
    simp [hadm, hq, List.append_assoc]

/-- One rate-limiter step preserves the per-window admission bound. -/
lemma rlStep_count (cfg : Settings) (st : RLState) (tlast now s0 : ℚ)
    (hle : tlast ≤ now) (h : RLInv cfg.rps_window_secs tlast st)
    (hc : countWindow cfg.rps_window_secs s0 st.admitted ≤ rpsLimit cfg) :
    countWindow cfg.rps_window_secs s0 (rlStep cfg st now).admitted ≤
      rpsLimit cfg := by
  obtain ⟨dropped, hadm, hold⟩ := h
  obtain ⟨e, hq, he⟩ := evictOld_decomp cfg.rps_window_secs now st.q
  by_cases hlen :
      rpsLimit cfg ≤ (evictOld cfg.rps_window_secs now st.q).length
  · rw [rlStep_of_reject cfg st now hlen]
    exact hc
  · rw [rlStep_admitted cfg st now hlen]
    simp only []
    rw [countWindow_append]
    by_cases hin : s0 ≤ now ∧ now ≤ s0 + cfg.rps_window_secs
    · have hd0 : countWindow cfg.rps_window_secs s0 dropped = 0 := by
        refine countWindow_eq_zero _ _ _ ?_
        intro d hd
        have h1 := hold d hd
        rintro ⟨hs, -⟩
        have := hin.2
        linarith
      have he0 : countWindow cfg.rps_window_secs s0 e = 0 := by
        refine countWindow_eq_zero _ _ _ ?_
        intro d hd
        have h1 := he d hd
        rintro ⟨hs, -⟩
        have := hin.2
        linarith
      have hcnt : countWindow cfg.rps_window_secs s0 st.admitted ≤
          (evictOld cfg.rps_window_secs now st.q).length := by
        revert hq
        generalize evictOld cfg.rps_window_secs now st.q = q1
        intro hq
        rw [hadm, hq, countWindow_append, countWindow_append, hd0, he0]
        simpa using countWindow_le_length cfg.rps_window_secs s0 q1
      have hlt : countWindow cfg.rps_window_secs s0 st.admitted <
          rpsLimit cfg := lt_of_le_of_lt hcnt (not_le.1 hlen)
      have h1 : countWindow cfg.rps_window_secs s0 [now] ≤ 1 := by
        simpa using countWindow_le_length cfg.rps_window_secs s0 [now]
      omega
    · have h0 : countWindow cfg.rps_window_secs s0 [now] = 0 := by
        refine countWindow_eq_zero _ _ _ ?_
        intro x hx
        rcases List.mem_singleton.1 hx with rfl
        exact hin
      omega

/-- The admission bound holds along any chronologically ordered request
sequence, given it holds at the start. -/
lemma rlChain_bound (cfg : Settings) (s0 : ℚ) :
    ∀ (ts : List ℚ) (st : RLState) (tlast : ℚ),
      List.Chain (· ≤ ·) tlast ts →
      RLInv cfg.rps_window_secs tlast st →
      countWindow cfg.rps_window_secs s0 st.admitted ≤ rpsLimit cfg →
      countWindow cfg.rps_window_secs s0
        (ts.foldl (rlStep cfg) st).admitted ≤ rpsLimit cfg := by
  intro ts
  induction ts with
  | nil => intro st tlast _ _ hc; exact hc
  | cons t rest ih =>
    intro st tlast hch hinv hc
    rcases List.chain_cons.1 hch with ⟨hle, hch2⟩
    exact ih (rlStep cfg st t) t hch2 (rlStep_inv cfg st tlast t hle hinv)
      (rlStep_count cfg st tlast t s0 hle hinv hc)

/-- C6: for any tenant request sequence in chronological order and any
window `[s0, s0 + rps_window_secs]`, the number of requests admitted by
`enforce_rps` whose timestamps fall in that window never exceeds
`max(rps_burst, floor(max_rps_per_ip * rps_window_secs))`: eviction
removes only entries older than the window before the size check, the
check rejects at the limit, and the timestamp is appended only on
admission. -/
theorem rate_window_admission_bound (cfg : Settings)
    (hr : 0 ≤ cfg.max_rps_per_ip) (hw : 0 ≤ cfg.rps_window_secs)
    (ts : List ℚ) (hsorted : ts.Chain' (· ≤ ·)) (s0 : ℚ) :
    countWindow cfg.rps_window_secs s0 (rlRun cfg ts).admitted ≤
      max cfg.rps_burst
        (Int.toNat ⌊cfg.max_rps_per_ip * cfg.rps_window_secs⌋) := by
  have hlim : rpsLimit cfg =
      max cfg.rps_burst
        (Int.toNat ⌊cfg.max_rps_per_ip * cfg.rps_window_secs⌋) := by
    unfold rpsLimit pyInt
    rw [if_pos (mul_nonneg hr hw)]
  rw [← hlim]
  cases ts with
  | nil => simp [rlRun, countWindow]
  | cons t0 rest =>
    have hch : List.Chain (· ≤ ·) t0 (t0 :: rest) :=
      List.chain_cons.2 ⟨le_refl t0, hsorted⟩
    exact rlChain_bound cfg s0 (t0 :: rest) ⟨[], []⟩ t0 hch
      ⟨[], rfl, by simp⟩ (by simp [countWindow])

/-- C6 witness: tenant times 0, 0, 1, 2 under `cfgA` (burst 1, 1 rps over
a 1 s window): within the window starting at 0 at most one request is
admitted. -/
theorem rate_window_admission_bound_witness :
    ((0:ℚ) ≤ cfgA.max_rps_per_ip ∧ (0:ℚ) ≤ cfgA.rps_window_secs ∧
      [(0:ℚ), 0, 1, 2].Chain' (· ≤ ·)) ∧
    countWindow cfgA.rps_window_secs 0 (rlRun cfgA [0, 0, 1, 2]).admitted ≤
      max cfgA.rps_burst
        (Int.toNat ⌊cfgA.max_rps_per_ip * cfgA.rps_window_secs⌋) := by
  refine ⟨⟨by norm_num [cfgA], by norm_num [cfgA],
    by simp [List.chain'_cons, List.chain'_singleton]⟩, ?_⟩
  exact rate_window_admission_bound cfgA (by norm_num [cfgA])
    (by norm_num [cfgA]) [0, 0, 1, 2]
    (by simp [List.chain'_cons, List.chain'_singleton]) 0

/-- The last element of a list extended by two entries. -/
lemma getLast?_append_pair {α : Type} (l : List α) (a b : α) :
    (l ++ [a, b]).getLast? = some b := by
  rw [show l ++ [a, b] = (l ++ [a]) ++ [b] by simp]
  exact List.getLast?_concat _

/-- C2 (amended): every frame the stream proxy emits is of the shape
`data: <payload>\n\n`, and the final frame is `data: [DONE]\n\n` on the
circuit-open, pre-stream-error, read-timeout and generic-exception
terminations; a stream ended by the idle-timeout `break` (or by an
upstream close without a sentinel) is NOT followed by a `[DONE]` frame. -/
theorem sse_frame_shape_and_done (cfg : Settings) (b : Breaker)
    (tEnter tFail : ℚ) (inp : StreamInput) :
    (∀ f ∈ (stream_generate cfg b tEnter tFail inp).1,
      ∃ p, frameText f = "data: " ++ p ++ "\n\n") ∧
    ((breakerEnter cfg tEnter b).2 = true →
      (stream_generate cfg b tEnter tFail inp).1.getLast? =
        some Frame.doneF) ∧
    ((breakerEnter cfg tEnter b).2 = false → 400 ≤ inp.status →
      (stream_generate cfg b tEnter tFail inp).1.getLast? =
        some Frame.doneF) ∧
    ((breakerEnter cfg tEnter b).2 = false → inp.status < 400 →
      (stream_loop cfg tEnter inp.lines).2 = .finished →
      inp.ending ≠ .closed →
      (stream_generate cfg b tEnter tFail inp).1.getLast? =
        some Frame.doneF) := by
  refine ⟨fun f _ => ⟨framePayload f, rfl⟩, ?_, ?_, ?_⟩
  · intro hopen
    simp [stream_generate, hopen]
  · intro hopen hst
    simp [stream_generate, hopen, hst]
  · intro hopen hst hfin hend
    have hst' : ¬ (400 ≤ inp.status) := by omega
    simp only [stream_generate, hopen, Bool.false_eq_true, if_false,
      hst', ite_false]
    rw [hfin]
    cases hending : inp.ending with
    | closed => exact absurd hending hend
    | timedOut msg => exact getLast?_append_pair _ _ _
    | failed msg => exact getLast?_append_pair _ _ _

/-- C2 witness: a CLOSED breaker and a pre-stream HTTP 500: the emitted
stream ends with the `[DONE]` frame. -/
theorem sse_frame_shape_and_done_witness :
    ((breakerEnter cfgA 0 initBreaker).2 = false ∧
      400 ≤ err500Inp.status) ∧
    (stream_generate cfgA initBreaker 0 0 err500Inp).1.getLast? =
      some Frame.doneF :=
  ⟨⟨by decide, by decide⟩,
   (sse_frame_shape_and_done cfgA initBreaker 0 0 err500Inp).2.2.1
     (by decide) (by decide)⟩

/-- Recording a success is never the same breaker update as recording a
failure, unless the breaker was OPEN (where success is a no-op). -/
lemma record_success_ne_record_failure (cfg : Settings) (t : ℚ)
    (b1 : Breaker) (hs : b1.state ≠ .opened) :
    record_success b1 ≠ record_failure cfg t b1 := by
  intro heq
  cases hst : b1.state with
  | opened => exact hs hst
  | closed =>
    by_cases h3 : cfg.circuit_failure_threshold ≤ b1.failure_count + 1
    · simp [record_success, record_failure, hst, h3, Breaker.mk.injEq] at heq
    · simp only [record_success, record_failure, hst, h3, if_false,
        ite_false] at heq
      have := congrArg Breaker.failure_count heq
      simp at this
  | halfOpen =>
    by_cases h3 : 3 ≤ b1.success_count + 1
    · simp only [record_success, record_failure, hst, h3, if_pos,
        ite_true] at heq
      have := congrArg Breaker.state heq
      simp at this
    · simp only [record_success, record_failure, hst, h3, if_false,
        ite_false] at heq
      have := congrArg Breaker.state heq
      simp [hst] at this

/-- C9 (amended): when the breaker admits the call and the backend answers
a pre-stream HTTP status of 400 or more, the generator emits the error
frame and `[DONE]` and returns normally, so the breaker records the call
as a SUCCESS — and this outcome differs from what recording a failure (at
any time) would have produced. -/
theorem pre_stream_error_breaker_success (cfg : Settings) (b : Breaker)
    (tEnter tFail : ℚ) (inp : StreamInput)
    (hopen : (breakerEnter cfg tEnter b).2 = false)
    (hst : 400 ≤ inp.status) :
    (stream_generate cfg b tEnter tFail inp).2 =
      record_success (breakerEnter cfg tEnter b).1 ∧
    ∀ t, (stream_generate cfg b tEnter tFail inp).2 ≠
      record_failure cfg t (breakerEnter cfg tEnter b).1 := by
  have hres : (stream_generate cfg b tEnter tFail inp).2 =
      record_success (breakerEnter cfg tEnter b).1 := by
    simp [stream_generate, hopen, hst]
  refine ⟨hres, fun t heq => ?_⟩
  rw [hres] at heq
  have hs : (breakerEnter cfg tEnter b).1.state ≠ .opened := by
    intro hsop
    have h2 : (breakerEnter cfg tEnter b).2 =
        ((breakerEnter cfg tEnter b).1.state == .opened) := rfl
    rw [hopen, hsop] at h2
    simp at h2
  exact record_success_ne_record_failure cfg t _ hs heq

/-- C9 (amended) witness: the CLOSED initial breaker and a pre-stream
HTTP 500 body. -/
theorem pre_stream_error_breaker_success_witness :
    ((breakerEnter cfgA 0 initBreaker).2 = false ∧
      400 ≤ err500Inp.status) ∧
    ((stream_generate cfgA initBreaker 0 0 err500Inp).2 =
       record_success (breakerEnter cfgA 0 initBreaker).1 ∧
     ∀ t, (stream_generate cfgA initBreaker 0 0 err500Inp).2 ≠
       record_failure cfgA t (breakerEnter cfgA 0 initBreaker).1) :=
  ⟨⟨by decide, by decide⟩,
   pre_stream_error_breaker_success cfgA initBreaker 0 0 err500Inp
     (by decide) (by decide)⟩

/-- Popping the stripped fields removes every occurrence of a stripped
key. -/
lemma jObjHas_stripFields : ∀ (fs : JObj) (k : String),
    vllmFields.contains k = true → jObjHas (stripFields fs) k = false
  | .nil, _, _ => rfl
  | .cons k1 v rest, k, hk => by
    have hkmem : k ∈ vllmFields := by simpa using hk
    by_cases h : k1 ∈ vllmFields
    · simp [stripFields, h, jObjHas_stripFields rest k hk]
    · have hne : (k1 == k) = false := by
        refine beq_eq_false_iff_ne.2 ?_
        intro heq
        exact h (heq ▸ hkmem)
      simp [stripFields, h, jObjHas, hne, jObjHas_stripFields rest k hk]

/-- The `choices` rewrite keeps the key set unchanged. -/
lemma jObjHas_cleanChoicesEntry : ∀ (fs : JObj) (k : String),
    jObjHas (cleanChoicesEntry fs) k = jObjHas fs k
  | .nil, _ => rfl
  | .cons k1 v rest, k => by
    simp [cleanChoicesEntry, jObjHas, jObjHas_cleanChoicesEntry rest k]

/-- The `delta`/`message` rewrite keeps the key set unchanged. -/
lemma jObjHas_cleanChoiceFields : ∀ (fs : JObj) (k : String),
    jObjHas (cleanChoiceFields fs) k = jObjHas fs k
  | .nil, _ => rfl
  | .cons k1 v rest, k => by
    simp [cleanChoiceFields, jObjHas, jObjHas_cleanChoiceFields rest k]

/-- Lookup through the `delta`/`message` rewrite: those two keys come back
cleaned, all others untouched. -/
lemma jObjGet_cleanChoiceFields : ∀ (fs : JObj) (k : String),
    jObjGet (cleanChoiceFields fs) k =
      if k == "delta" || k == "message" then (jObjGet fs k).map cleanInner
      else jObjGet fs k
  | .nil, k => by simp [cleanChoiceFields, jObjGet]
  | .cons k1 v rest, k => by
    by_cases h1 : k1 == k
    · have hk1 : k1 = k := by simpa using h1
      subst hk1
      by_cases h2 : (k1 == "delta" || k1 == "message") = true
      · simp [cleanChoiceFields, jObjGet, h2]
      · simp [cleanChoiceFields, jObjGet, h2]
    · have h1' : (k1 == k) = false := by simpa using h1
      by_cases h2 : (k1 == "delta" || k1 == "message") = true
      · simp [cleanChoiceFields, jObjGet, h1', h2,
          jObjGet_cleanChoiceFields rest k]
      · simp [cleanChoiceFields, jObjGet, h1', h2,
          jObjGet_cleanChoiceFields rest k]

/-- Lookup of `choices` through the entry rewrite. -/
lemma jObjGet_cleanChoicesEntry : ∀ (fs : JObj),
    jObjGet (cleanChoicesEntry fs) "choices" =
      match jObjGet fs "choices" with
      | some (.arr cs) => some (.arr (cleanChoices cs))
      | some v => some v
      | none => none
  | .nil => by simp [cleanChoicesEntry, jObjGet]
  | .cons k1 v rest => by
    by_cases h1 : k1 == "choices"
    · have hk1 : k1 = "choices" := by simpa using h1
      subst hk1
      cases v <;> simp [cleanChoicesEntry, jObjGet]
    · have h1' : (k1 == "choices") = false := by simpa using h1
      simp [cleanChoicesEntry, jObjGet, h1',
        jObjGet_cleanChoicesEntry rest]

/-- An inner-cleaned value has no stripped key left at its top level. -/
lemma objLacks_cleanInner (v : JVal) (k : String)
    (hk : vllmFields.contains k = true) :
    objLacks (cleanInner v) k = true := by
  cases v <;> simp [cleanInner, objLacks, jObjHas_stripFields _ _ hk]

/-- A cleaned choice carries no stripped key at the choice level or inside
`delta` / `message`. -/
lemma choiceStripped_cleanChoice (c : JVal) (k : String)
    (hk : vllmFields.contains k = true) :
    choiceStripped (cleanChoice c) k = true := by
  cases c with
  | obj cf =>
    simp only [cleanChoice, choiceStripped, objLacks, Bool.and_eq_true]
    refine ⟨?_, ?_, ?_⟩
    · rw [jObjHas_cleanChoiceFields, jObjHas_stripFields _ _ hk]
      rfl
    · rw [jObjGet_cleanChoiceFields]
      simp only [show (("delta" == "delta" || "delta" == "message")) = true
        from rfl, if_pos, ite_true]
      cases jObjGet (stripFields cf) "delta" with
      | none => rfl
      | some d => simpa using objLacks_cleanInner d k hk
    · rw [jObjGet_cleanChoiceFields]
      simp only [show (("message" == "delta" || "message" == "message")) = true
        from rfl, if_pos, ite_true]
      cases jObjGet (stripFields cf) "message" with
      | none => rfl
      | some m => simpa using objLacks_cleanInner m k hk
  | null => rfl
  | jbool b => rfl
  | num q => rfl
  | str s => rfl
  | arr xs => rfl

/-- All cleaned choices are stripped. -/
lemma allChoicesStripped_cleanChoices : ∀ (cs : JArr) (k : String),
    vllmFields.contains k = true →
    allChoicesStripped (cleanChoices cs) k = true
  | .nil, _, _ => rfl
  | .cons c rest, k, hk => by
    simp [cleanChoices, allChoicesStripped,
      choiceStripped_cleanChoice c k hk,
      allChoicesStripped_cleanChoices rest k hk]

/-- The chunk cleaner removes a stripped key at every inspected level. -/
lemma chunkStripped_clean (chunk : JObj) (k : String)
    (hk : vllmFields.contains k = true) :
    chunkStripped (clean_stream_chunk chunk) k = true := by
  unfold chunkStripped clean_stream_chunk
  simp only [Bool.and_eq_true]
  refine ⟨?_, ?_⟩
  · rw [jObjHas_cleanChoicesEntry, jObjHas_stripFields _ _ hk]
    rfl
  · rw [jObjGet_cleanChoicesEntry]
    cases hg : jObjGet (stripFields chunk) "choices" with
    | none => rfl
    | some v =>
      cases v with
      | arr cs => simpa using allChoicesStripped_cleanChoices cs k hk
      | null => rfl
      | jbool b => rfl
      | num q => rfl
      | str s => rfl
      | obj fs => rfl

/-- C5 (amended): a data chunk WITHOUT an `error` key is emitted as its
cleaned object, which carries none of the six stripped fields at the top
level, in any `choices[i]`, in any `choices[i].delta` or in any
`choices[i].message`; and on the S4 input the gateway emits exactly two
frames, the cleaned `choices/delta/content` object and then
`data: [DONE]\n\n`.  (Chunks WITH an `error` key bypass the cleaner — see
the counterexample.) -/
theorem clean_chunk_strips_fields_and_s4 :
    (∀ (chunk : JObj) (k : String), jObjHas chunk "error" = false →
      vllmFields.contains k = true →
      emitLine (.dataJson chunk) =
        [Frame.jsonF (.obj (clean_stream_chunk chunk))] ∧
      chunkStripped (clean_stream_chunk chunk) k = true) ∧
    (stream_generate cfgA initBreaker 0 0 s4inp).1 =
      [Frame.jsonF (.obj s4expected), Frame.doneF] ∧
    frameText Frame.doneF = "data: [DONE]\n\n" := by
  refine ⟨?_, ?_, rfl⟩
  · intro chunk k herr hk
    exact ⟨by simp [emitLine, herr], chunkStripped_clean chunk k hk⟩
  · have h1 : ¬ ((10:ℚ) < 1 - 0) := by norm_num
    have h2 : ¬ ((10:ℚ) < 2 - 1) := by norm_num
    simp [stream_generate, stream_loop, emitLine, breakerEnter,
      should_attempt_reset, record_success, clean_stream_chunk, stripFields,
      cleanChoicesEntry, cleanChoices, cleanChoice, cleanChoiceFields,
      cleanInner, jObjHas, s4inp, s4chunk, s4expected, initBreaker, h1, h2,
      cfgA, vllmFields]

/-- C5 witness: a chunk with `token_ids` present at all four levels and no
`error` key is emitted cleaned, with no `token_ids` anywhere the cleaner
inspects. -/
theorem clean_chunk_strips_fields_and_s4_witness :
    (jObjHas wchunk "error" = false ∧
      vllmFields.contains "token_ids" = true) ∧
    (emitLine (.dataJson wchunk) =
      [Frame.jsonF (.obj (clean_stream_chunk wchunk))] ∧
     chunkStripped (clean_stream_chunk wchunk) "token_ids" = true) :=
  ⟨⟨by decide, by decide⟩,
   clean_chunk_strips_fields_and_s4.1 wchunk "token_ids"
     (by decide) (by decide)⟩

end Gateway
